import Mathlib

/-!
Verification of the retrieval-and-orchestration core of the
construction-safety reporter agent.

Source files embedded here:
- `src/core/retriever.py` / `src/core/llm_multidb_retriever.py`
  (`RerankRetriever._hybrid_merge`, `SingleDBHybridRetriever._hybrid_merge`,
  `SingleDBHybridRetriever.retrieve`, `DocTitleHybridRouter.get_db_from_title`,
  `EXACT_TITLE_DB_MAP`)
- `src/agents/subagents.py` (`RAGAgent._sanitize_plan`,
  `RAGAgent._search_documents`, the HITL while-loop of `RAGAgent.run`)
- `src/app_chainlit.py` (the HITL while-loop of `perform_rag_search_with_hitl`)
- `src/core/human_feedback_collector.py` (`HumanFeedbackCollector.process`,
  `_select_documents_chainlit`, `_parse_selection`)
- `src/agents/orchestrator.py` (`OrchestratorAgent.decide_next_agent`,
  `OrchestratorAgent._fallback_decision`, `OrchestratorAgent.run`)

Documents are abstracted by the value Python computes as
`hash(doc.page_content)` (a natural number); scores are rationals.
A fallible Python call is a `PyResult`; `.exn` is a raised exception.
External services (embedding, reranker, the feedback UI, the LLM) are
parameters of the embedded functions.
-/

/-- Outcome of a Python computation that can raise an exception. -/
inductive PyResult (α : Type) : Type where
  | ok (val : α)
  | exn
deriving DecidableEq

namespace PyResult

/-- `true` exactly when the computation raised. -/
def isExn {α : Type} : PyResult α → Bool
  | .ok _ => false
  | .exn => true

end PyResult

/-- Lookup in a Python dict built by a comprehension such as
`{hash(doc.page_content): score for doc, score in dense_results}`:
a later binding for the same key overwrites an earlier one, so the
lookup returns the value of the LAST pair carrying the key (the tail of
the list is inserted after the head and takes precedence). -/
def pyDictLookup {β : Type} (l : List (ℕ × β)) (k : ℕ) : Option β :=
  match l with
  | [] => none
  | p :: t => (pyDictLookup t k).or (if p.1 = k then some p.2 else none)

/-! ## Hybrid dense/sparse fusion

`RerankRetriever._hybrid_merge` (src/core/retriever.py lines 156-175) and
`SingleDBHybridRetriever._hybrid_merge` (src/core/llm_multidb_retriever.py
lines 189-207) are letter-for-letter the same algorithm; this is their
common embedding.  `dense` is `dense_results` as pairs
(content hash, dense score); `sparse` is `sparse_results` as content
hashes in rank order.  When `sparse_results` is empty and `dense_results`
is not, the Python expression `1 - s_rank / len(sparse_results)` raises
`ZeroDivisionError` on the first iteration of the dense loop, modelled
by `.exn`. -/

/-- Descending order on the combined score: the Python
`sorted(all_docs, key=lambda x: x[1], reverse=True)`.  (The sort is
modelled by a comparison sort on this relation; the theorems below use
only sortedness and the multiset of entries, which any faithful model
of `sorted` provides.) -/
def scoreGe (a b : ℕ × ℚ) : Prop := b.2 ≤ a.2

instance : DecidableRel scoreGe := fun a b => inferInstanceAs (Decidable (b.2 ≤ a.2))

instance : IsTotal (ℕ × ℚ) scoreGe := ⟨fun a b => le_total b.2 a.2⟩

instance : IsTrans (ℕ × ℚ) scoreGe := ⟨fun _ _ _ h1 h2 => le_trans h2 h1⟩

/-- The entries of the Python `sparse_dict = {hash(doc.page_content): i
for i, doc in enumerate(sparse_results)}`. -/
def sparseDictEntries (sparse : List ℕ) : List (ℕ × ℕ) :=
  sparse.enum.map fun p => (p.2, p.1)

/-- `_hybrid_merge(dense_results, sparse_results)` keeping the combined
scores: the internal `all_docs` list after the final sort. -/
def hybrid_merge (alpha : ℚ) (dense : List (ℕ × ℚ)) (sparse : List ℕ) :
    PyResult (List (ℕ × ℚ)) :=
  if dense ≠ [] ∧ sparse = [] then .exn
  else
    let N : ℚ := (sparse.length : ℚ)
    let dense_keys := dense.map Prod.fst
    let dense_scored := dense.map fun p =>
      let s_rank : ℕ := (pyDictLookup (sparseDictEntries sparse) p.1).getD sparse.length
      (p.1, alpha * p.2 + (1 - alpha) * (1 - (s_rank : ℚ) / N))
    let sparse_only := sparse.enum.filterMap fun p =>
      if p.2 ∈ dense_keys then none
      else some (p.2, (1 - alpha) * (1 - (p.1 : ℚ) / N))
    .ok (List.insertionSort scoreGe (dense_scored ++ sparse_only))

/-- The value `_hybrid_merge` actually returns:
`[doc for doc, _ in all_docs]`. -/
def hybrid_merge_docs (alpha : ℚ) (dense : List (ℕ × ℚ)) (sparse : List ℕ) :
    PyResult (List ℕ) :=
  match hybrid_merge alpha dense sparse with
  | .ok scored => .ok (scored.map Prod.fst)
  | .exn => .exn

/-- The property the specification states for the fusion step
(spec section 4.3 step 3): a document in the dense results scores
`alpha * dense_score + (1 - alpha) * (1 - sparse_rank / N_sparse)`
(the code takes `sparse_rank = N_sparse` for a dense document absent
from the lexical list, so the lexical term vanishes); a lexical-only
document scores `(1 - alpha) * (1 - sparse_rank / N_sparse)`; no
document from neither source appears; the output is sorted by combined
score in descending order. -/
def FusionSpec (alpha : ℚ) (dense : List (ℕ × ℚ)) (sparse : List ℕ)
    (out : List (ℕ × ℚ)) : Prop :=
  (∀ p ∈ dense, ∀ i : ℕ, sparse[i]? = some p.1 →
    (p.1, alpha * p.2 + (1 - alpha) * (1 - (i : ℚ) / (sparse.length : ℚ))) ∈ out) ∧
  (∀ p ∈ dense, p.1 ∉ sparse →
    (p.1, alpha * p.2 +
      (1 - alpha) * (1 - (sparse.length : ℚ) / (sparse.length : ℚ))) ∈ out) ∧
  (∀ (i h : ℕ), sparse[i]? = some h → h ∉ dense.map Prod.fst →
    (h, (1 - alpha) * (1 - (i : ℚ) / (sparse.length : ℚ))) ∈ out) ∧
  (∀ q ∈ out, q.1 ∈ dense.map Prod.fst ∨ q.1 ∈ sparse) ∧
  out.Sorted scoreGe

/-! ## Retrieval round over several partitions -/

/-- `SingleDBHybridRetriever.retrieve` (src/core/llm_multidb_retriever.py
lines 209-233).  The dense step (`similarity_search_with_score`, which
embeds the query through the remote embedding service) may raise; the
method body has no try/except, so the exception propagates and there is
no lexical-only fallback.  The reranker is an opaque reordering service;
`_clean_text` is the identity on content hashes. -/
def retrieve_hybrid (top_k : ℕ) (alpha : ℚ) (dense_step : PyResult (List (ℕ × ℚ)))
    (sparse : List ℕ) (rerank : List ℕ → List ℕ) : PyResult (List ℕ) :=
  match dense_step with
  | .exn => .exn
  | .ok dense =>
    match hybrid_merge_docs alpha dense sparse with
    | .exn => .exn
    | .ok merged => .ok ((rerank merged).take top_k)

/-- `RAGAgent._search_documents` (src/agents/subagents.py lines 260-280):
iterate over the partition list; a partition directory without
`index.faiss` is skipped with a printed warning; otherwise a retriever
is built and queried with NO try/except around it, so a raised
exception aborts the whole call (the accumulated sibling results are
lost). -/
def search_documents (hasIndex : String → Bool)
    (retrieve : String → PyResult (List ℕ)) : List String → PyResult (List ℕ)
  | [] => .ok []
  | db :: rest =>
    if hasIndex db then
      match retrieve db with
      | .exn => .exn
      | .ok docs =>
        match search_documents hasIndex retrieve rest with
        | .exn => .exn
        | .ok more => .ok (docs ++ more)
    else search_documents hasIndex retrieve rest

/-! ## Partition plan sanitisation and the exact-title router -/

/-- The `db_list` / `fallback` / `fallback_db` triple produced by the
DB-selection planning step. -/
structure PartitionPlan where
  db_list : List String
  fallback : Bool
  fallback_db : String
deriving DecidableEq

/-- `RAGAgent._sanitize_plan` (src/agents/subagents.py lines 224-258):
keep only names that exist among the available DBs; if none remain,
substitute `08_general` (or the first available DB); an invalid
fallback DB name is likewise corrected. -/
def sanitize_plan (available_dbs : List String) (plan : PartitionPlan) :
    PartitionPlan :=
  let valid0 := plan.db_list.filter fun db => decide (db ∈ available_dbs)
  let valid :=
    if valid0 = [] then
      if "08_general" ∈ available_dbs then ["08_general"]
      else available_dbs.take 1
    else valid0
  if plan.fallback = true ∧ plan.fallback_db ∉ available_dbs then
    if "08_general" ∈ available_dbs then ⟨valid, true, "08_general"⟩
    else if available_dbs ≠ [] then ⟨valid, true, available_dbs.headD ""⟩
    else ⟨valid, false, ""⟩
  else ⟨valid, plan.fallback, plan.fallback_db⟩

/-- `EXACT_TITLE_DB_MAP` (src/core/llm_multidb_retriever.py lines
17-125): the exact document-title to partition-DB map. -/
def EXACT_TITLE_DB_MAP : List (String × String) := [
  ("사장교교량공사안전보건작업지침", "01_bridge"),
  ("교량공사의이동식비계공법(mss)안전작업지침", "01_bridge"),
  ("강아치교(벤트공법)안전보건작업지침", "01_bridge"),
  ("pct거더교량공사안전보건작업지침", "01_bridge"),
  ("현수교교량공사안전보건작업지침", "01_bridge"),
  ("교량슬래브거푸집해체용작업대차안전작업지침", "01_bridge"),
  ("교량공사(라멘교)안전보건작업지침", "01_bridge"),
  ("현수교주탑시공안전보건작업지침", "01_bridge"),
  ("소규모철근콘크리트교량공사거푸집동바리안전작업지침", "01_bridge"),
  ("i.l.m교량공사안전보건작업지침", "01_bridge"),
  ("트러스거더교량공사안전보건작업지침", "01_bridge"),
  ("해상rcd현장타설말뚝공사(현수교,사장교)안전작업지침", "01_bridge"),
  ("교량공사(p.s.m공법)안전작업지침", "01_bridge"),
  ("프리스트레스트콘크리트(psc)교량공사안전작업지침", "01_bridge"),
  ("f.c.m교량공사안전보건작업지침", "01_bridge"),
  ("흙막이공사(soilnailing공법)안전보건작업지침", "02_earth"),
  ("흙막이공사(지하연속벽)안전보건작업지침", "02_earth"),
  ("우물통기초안전보건작업지침", "02_earth"),
  ("시트(sheet)방수안전보건작업지침", "02_earth"),
  ("흙막이공사(강널말뚝,sheetpile)의안전보건작업지침", "02_earth"),
  ("흙막이공사(earthanchor공법)안전보건작업지침", "02_earth"),
  ("흙막이공사(엄지말뚝공법)안전보건작업지침", "02_earth"),
  ("건설공사굴착면안전기울기준에관한기술지침", "02_earth"),
  ("흙막이공사(띠장긴장공법,prestressedwalemethod)안전보건작업지침", "02_earth"),
  ("지하매설물굴착공사안전작업지침", "02_earth"),
  ("굴착공사계측관리기술지침", "02_earth"),
  ("옹벽(콘크리트옹벽)공사의안전보건작업지침", "02_earth"),
  ("중소규모관로공사의안전보건작업지침", "02_earth"),
  ("가공송전선로철탑심형기초공사안전보건작업지침", "02_earth"),
  ("흙막이공사(scw공법)안전보건작업지침", "02_earth"),
  ("굴착기안전보건작업지침", "02_earth"),
  ("흙막이공사(c.i.p공법)안전보건작업지침", "02_earth"),
  ("굴착공사안전작업지침", "02_earth"),
  ("관로매설공사안전보건작업기술지침", "02_earth"),
  ("블록식보강토옹벽공사안전보건작업지침", "02_earth"),
  ("관로매설공사(유압식추진공법)안전보건작업지침", "02_earth"),
  ("터널공사(ntr공법)안전보건작업지침", "03_tunnel"),
  ("터널공사(프론트잭킹)안전보건작업지침", "03_tunnel"),
  ("터널공사(shield-t.b.m공법)안전보건작업지침", "03_tunnel"),
  ("발파공사안전보건작업지침", "03_tunnel"),
  ("터널공사(침매공법)안전보건작업지침", "03_tunnel"),
  ("탑다운(topdown)공법안전작업지침", "03_tunnel"),
  ("터널공사(natm공법)안전보건작업지침", "03_tunnel"),
  ("철골공사무지보거푸집동바리(데크플레이트공법)안전보건작업지침", "04_scaffold"),
  ("가설구조물의설계변경요청내용절차등에관한작성지침", "04_scaffold"),
  ("갱폼(gangform)제작및사용안전지침", "04_scaffold"),
  ("낙하물방호선반설치지침", "04_scaffold"),
  ("시스템폼(rcs폼,acs폼중심)안전작업지침", "04_scaffold"),
  ("강관비계안전작업지침", "04_scaffold"),
  ("수직보호망설치지침", "04_scaffold"),
  ("작업발판설치및사용안전지침", "04_scaffold"),
  ("곤돌라(gondola)안전보건작업지침", "04_scaffold"),
  ("이동식비계설치및사용안전기술지침", "04_scaffold"),
  ("슬립폼(slipform)안전작업지침", "04_scaffold"),
  ("작업의자형달비계안전작업지침", "04_scaffold"),
  ("수직형추락방망설치기술지침", "04_scaffold"),
  ("가설계단설치및사용안전보건작업지침", "04_scaffold"),
  ("파이프서포트동바리안전작업지침", "04_scaffold"),
  ("시스템비계안전작업지침", "04_scaffold"),
  ("낙하물방지망설치지침", "04_scaffold"),
  ("추락방호망설치지침", "04_scaffold"),
  ("시스템동바리안전작업지침", "04_scaffold"),
  ("건설공사의고소작업대안전보건작업지침", "05_crane"),
  ("타워크레인설치조립해체작업계획서작성지침", "05_crane"),
  ("이동식크레인안전보건작업지침", "05_crane"),
  ("항타기항발기사용작업계획서작성지침", "05_crane"),
  ("수상바지(barge)선이용건설공사안전작업지침", "05_crane"),
  ("건설현장의중량물취급작업계획서(이동식크레인)작성지침", "05_crane"),
  ("덤프트럭및화물자동차안전작업지침", "05_crane"),
  ("트럭탑재형크레인(cagocrane)안전보건작업지침", "05_crane"),
  ("건설기계안전보건작업지침", "05_crane"),
  ("밀폐공간의방수공사안전보건작업지침", "06_finishing"),
  ("미장공사안전보건작업지침", "06_finishing"),
  ("조적공사안전보건작업기술지침", "06_finishing"),
  ("건축물의석공사(내외장)안전보건작업기술지침", "06_finishing"),
  ("조경공사(수목식재작업)안전보건작업지침", "06_finishing"),
  ("냉동냉장물류창고단열공사화재예방안전보건작업지침", "06_finishing"),
  ("내장공사의안전보건작업지침", "06_finishing"),
  ("금속커튼월(curtainwall)안전작업지침", "06_finishing"),
  ("타일(tile)공사안전보건작업지침", "06_finishing"),
  ("경량철골천장공사안전보건작업지침", "06_finishing"),
  ("철탑공사안전보건기술지침", "07_concrete"),
  ("콘크리트공사의안전보건작업지침", "07_concrete"),
  ("기성콘크리트파일항타안전보건작업지침", "07_concrete"),
  ("철골공사안전보건작업지침", "07_concrete"),
  ("프리캐스트콘크리트건축구조물조립안전보건작업지침", "07_concrete"),
  ("아스팔트콘크리트포장공사안전보건작업지침", "07_concrete"),
  ("단순슬래브콘크리트타설안전보건작업지침", "07_concrete"),
  ("해체공사안전보건작업기술지침", "08_general"),
  ("야간건설공사안전보건작업지침", "08_general"),
  ("중소규모건설업체본사의안전보건관리에관한지침", "08_general"),
  ("건설현장용접용단안전보건작업기술지침", "08_general"),
  ("화학플랜트개보수공사안전보건작업기술지침", "08_general"),
  ("초고층건축물공사(화재예방)안전보건작업지침", "08_general"),
  ("건설공사안전보건설계지침", "08_general"),
  ("안전대사용지침", "08_general"),
  ("초고층건축물공사(일반사항)안전보건작업지침", "08_general"),
  ("취약시기건설현장안전작업지침", "08_general"),
  ("건설공사돌관작업안전보건작업지침", "08_general")
]

/-- `DocTitleHybridRouter.get_db_from_title`
(src/core/llm_multidb_retriever.py lines 251-256): exact match only; an
unmapped title raises `ValueError` (the `.exn` outcome). -/
def get_db_from_title (doctitle : String) : PyResult String :=
  match EXACT_TITLE_DB_MAP.lookup doctitle with
  | some db => .ok db
  | none => .exn

/-- The eight partition DBs of the deployed corpus (the folders under
`DB/` that carry a `description.json`), used for concrete instances. -/
def standard_dbs : List String :=
  ["01_bridge", "02_earth", "03_tunnel", "04_scaffold",
   "05_crane", "06_finishing", "07_concrete", "08_general"]

/-! ## Feedback collector: document selection -/

/-- One comma-separated token of the selection string, as
`_parse_selection` splits it: a plain integer or a `start-end` range.
A token on which `int()` raises is covered by
`SelectionInput.malformed` below. -/
inductive SelPart : Type where
  | single (n : ℤ)
  | span (a b : ℤ)
deriving DecidableEq

/-- Python `range(start, end + 1)` over integers. -/
def intRange (a b : ℤ) : List ℤ :=
  (List.range (b + 1 - a).toNat).map fun i => a + (i : ℤ)

/-- `HumanFeedbackCollector._parse_selection`
(src/core/human_feedback_collector.py lines 383-401): collect all
tokens, take `sorted(set(indices))`, then keep `1 <= i <= max_num`. -/
def parse_selection (parts : List SelPart) (max_num : ℕ) : List ℤ :=
  let indices := parts.flatMap fun p =>
    match p with
    | .single n => [n]
    | .span a b => intRange a b
  let sorted := indices.dedup.insertionSort (· ≤ ·)
  sorted.filter fun i => decide (1 ≤ i ∧ i ≤ (max_num : ℤ))

/-- `[docs[i-1] for i in indices if 1 <= i <= len(docs)]`. -/
def select_by_indices (docs : List ℕ) (indices : List ℤ) : List ℕ :=
  indices.filterMap fun i =>
    if 1 ≤ i ∧ i ≤ (docs.length : ℤ) then docs[(i - 1).toNat]? else none

/-- Outcome of the `AskUserMessage` prompt inside
`_select_documents_chainlit` (lines 349-381): the prompt timed out
(falsy result), the input string made `int()` raise (caught, `[]`
returned), or it parsed into tokens. -/
inductive SelectionInput : Type where
  | timeout
  | malformed
  | parts (ps : List SelPart)

/-- `HumanFeedbackCollector._select_documents_chainlit`. -/
def select_documents_chainlit (docs : List ℕ) (inp : SelectionInput) : List ℕ :=
  match inp with
  | .timeout => []
  | .malformed => []
  | .parts ps => select_by_indices docs (parse_selection ps docs.length)

/-- The action carried by the feedback dict that
`HumanFeedbackCollector.process` returns. -/
inductive FAction : Type where
  | accept_all
  | partial_select
  | research_keyword
  | research_db
  | no_docs
deriving DecidableEq

/-- The `action == "2"` (partial selection) branch of
`HumanFeedbackCollector.process` (lines 68-75): a non-empty selection is
returned with action `select_partial`; an empty selection falls back to
ALL current documents with action `accept_all`. -/
def process_partial_select (docs : List ℕ) (inp : SelectionInput) :
    List ℕ × FAction :=
  let selected := select_documents_chainlit docs inp
  if selected ≠ [] then (selected, .partial_select) else (docs, .accept_all)

/-! ## The two HITL refinement loops -/

/-- The feedback dict returned by `HumanFeedbackCollector.process`. -/
structure Feedback where
  action : FAction
  web_search_requested : Bool
  keywords : List ℕ
  dbs : List String
  original_docs : List ℕ
deriving DecidableEq

/-- Observable outcome of a HITL loop: final working set, how many
requery iterations ran (`feedback_loop_count` at exit), whether the
budget-exhausted warning was emitted, and whether web search was
requested. -/
structure LoopResult where
  docs : List ℕ
  iterations : ℕ
  warned : Bool
  web_search : Bool
deriving DecidableEq

/-- `max_feedback_loops = 3` in both loops. -/
def MAX_FEEDBACK_LOOPS : ℕ := 3

/-- The union/cap step shared by both requery branches of `RAGAgent.run`
(src/agents/subagents.py lines 376-377 and 391-392) and by the keyword
branch of `perform_rag_search_with_hitl` (src/app_chainlit.py lines
219-220): `final_docs = feedback["original_docs"] + research_docs`
then `final_docs[:15]`.  There is no identity-key dedup here. -/
def requery_merge (original_docs research_docs : List ℕ) : List ℕ :=
  (original_docs ++ research_docs).take 15

/-- The HITL while-loop of `RAGAgent.run` (src/agents/subagents.py lines
322-414), parametrised by its environment: `enabled` is
`should_enable_feedback` on the current documents, `collector i docs`
is what `HumanFeedbackCollector.process` returns at iteration `i` when
shown `docs`, and `research i fb` is what `_search_documents` returns
for the requery of iteration `i` (the enhanced query and DB list are
functions of the feedback payload).  The first argument is the
remaining budget `max_feedback_loops - feedback_loop_count`; the loop
guard `feedback_loop_count < max_feedback_loops` is `0 < fuel`. -/
def rag_loop_go (enabled : List ℕ → Bool)
    (collector : ℕ → List ℕ → List ℕ × Feedback)
    (research : ℕ → Feedback → List ℕ) :
    ℕ → ℕ → List ℕ → LoopResult
  | 0, count, docs => ⟨docs, count, decide (MAX_FEEDBACK_LOOPS ≤ count), false⟩
  | fuel + 1, count, docs =>
    if enabled docs then
      match collector count docs with
      | (docs1, fb) =>
        if fb.web_search_requested then
          ⟨docs1, count, decide (MAX_FEEDBACK_LOOPS ≤ count), true⟩
        else
          match fb.action with
          | .research_keyword =>
            if fb.keywords ≠ [] then
              rag_loop_go enabled collector research fuel (count + 1)
                (requery_merge fb.original_docs (research count fb))
            else ⟨docs1, count, decide (MAX_FEEDBACK_LOOPS ≤ count), false⟩
          | .research_db =>
            if fb.dbs ≠ [] then
              rag_loop_go enabled collector research fuel (count + 1)
                (requery_merge fb.original_docs (research count fb))
            else ⟨docs1, count, decide (MAX_FEEDBACK_LOOPS ≤ count), false⟩
          | _ => ⟨docs1, count, decide (MAX_FEEDBACK_LOOPS ≤ count), false⟩
    else ⟨docs, count, decide (MAX_FEEDBACK_LOOPS ≤ count), false⟩

/-- `RAGAgent.run`'s loop started on the initial document set. -/
def rag_loop (enabled : List ℕ → Bool)
    (collector : ℕ → List ℕ → List ℕ × Feedback)
    (research : ℕ → Feedback → List ℕ) (docs0 : List ℕ) : LoopResult :=
  rag_loop_go enabled collector research MAX_FEEDBACK_LOOPS 0 docs0

/-- The HITL while-loop of `perform_rag_search_with_hitl`
(src/app_chainlit.py lines 166-279).  `search_k i fb` models the
`rag_agent.search_only(enhanced_query, state)` call of the keyword
branch (`.exn` = the caught exception path); note that `RAGAgent`
defines no `search_only` method anywhere in the repository, so in the
deployed source this call always raises `AttributeError` and `search_k`
can only ever take the `.exn` case — the keyword branch then sets
`docs = original_docs` and breaks.  `search_db i fb` models
`rag_agent._search_documents(db_list=selected_dbs, ...)` in the DB
branch, which does exist and can succeed.  A keyword decision with an
empty keyword list falls through to the final
`feedback_loop_count += 1` branch, exactly as in the source; the
warning message exists only in that final branch, so an exit through
the loop guard is silent. -/
def chainlit_loop_go (collector : ℕ → List ℕ → List ℕ × Feedback)
    (search_k : ℕ → Feedback → PyResult (List ℕ))
    (search_db : ℕ → Feedback → PyResult (List ℕ)) :
    ℕ → ℕ → List ℕ → LoopResult
  | 0, count, docs => ⟨docs, count, false, false⟩
  | fuel + 1, count, docs =>
    match collector count docs with
    | (docs1, fb) =>
      if fb.web_search_requested then ⟨docs1, count, false, true⟩
      else if fb.action = .research_keyword ∧ fb.keywords ≠ [] then
        match search_k count fb with
        | .exn => ⟨fb.original_docs, count, false, false⟩
        | .ok new_docs =>
          chainlit_loop_go collector search_k search_db fuel (count + 1)
            (requery_merge fb.original_docs new_docs)
      else if fb.action = .research_db then
        chainlit_loop_go collector search_k search_db fuel (count + 1)
          (if fb.dbs ≠ [] then
            match search_db count fb with
            | .exn => docs1
            | .ok new_docs => new_docs.take 10
          else docs1)
      else if fb.action = .accept_all ∨ fb.action = .partial_select then
        ⟨docs1, count, false, false⟩
      else
        if MAX_FEEDBACK_LOOPS ≤ count + 1 then ⟨docs1, count + 1, true, false⟩
        else chainlit_loop_go collector search_k search_db fuel (count + 1) docs1

/-- `perform_rag_search_with_hitl`'s loop started on the first search's
result. -/
def chainlit_loop (collector : ℕ → List ℕ → List ℕ × Feedback)
    (search_k : ℕ → Feedback → PyResult (List ℕ))
    (search_db : ℕ → Feedback → PyResult (List ℕ)) (docs0 : List ℕ) :
    LoopResult :=
  chainlit_loop_go collector search_k search_db MAX_FEEDBACK_LOOPS 0 docs0

/-! ## Orchestrator -/

/-- The slice of the session state the Orchestrator's decision reads. -/
structure OrchState where
  user_intent : String
  web_search_requested : Bool
  web_search_completed : Bool
  retrieved_docs : List ℕ
  report_text : Bool
  docx_path : Bool
deriving DecidableEq

/-- The four tool names the Orchestrator declares to the decision
service — the closed action enum. -/
def allowed_actions : List String :=
  ["RAGAgent", "WebSearchAgent", "ReportWriterAgent", "END"]

/-- `AGENT_REGISTRY` in src/agents/subagents.py: the binding at lines
921-925 is the one `get_agent` resolves at call time. -/
def agent_registry : List String :=
  ["RAGAgent", "WebSearchAgent", "ReportWriterAgent"]

/-- `OrchestratorAgent._fallback_decision`
(src/agents/orchestrator.py lines 204-254): the deterministic rule
table, evaluated in fixed priority order. -/
def fallback_decision (s : OrchState) : String :=
  if s.user_intent = "search_only" then
    if s.retrieved_docs = [] then "RAGAgent"
    else if s.web_search_requested = true ∧ s.web_search_completed = false then
      "WebSearchAgent"
    else "END"
  else
    if s.retrieved_docs = [] then "RAGAgent"
    else if s.retrieved_docs.length < 3 ∧ s.web_search_completed = false then
      "WebSearchAgent"
    else if s.web_search_requested = true ∧ s.web_search_completed = false then
      "WebSearchAgent"
    else if s.report_text = false then "ReportWriterAgent"
    else if s.docx_path = false then "ReportWriterAgent"
    else "END"

/-- Outcome of the `call_llm_with_tools` call in `decide_next_agent`
(src/agents/orchestrator.py lines 176-201): the call raised or timed
out; or it returned without a tool call; or it returned a tool call
whose function name is an arbitrary string — the code reads
`tool_call.function.name` and never validates it against the enum. -/
inductive LLMDecision : Type where
  | failure
  | no_tool_call
  | tool_call (name : String)
deriving DecidableEq

/-- `OrchestratorAgent.decide_next_agent` (lines 147-201): a raised
exception or a missing tool call resolves through
`_fallback_decision`; a returned tool-call name is passed through
unvalidated. -/
def decide_next_agent (llm : LLMDecision) (s : OrchState) : String :=
  match llm with
  | .failure => fallback_decision s
  | .no_tool_call => fallback_decision s
  | .tool_call name => name

/-- What `OrchestratorAgent.run` (lines 257-281) then does with the
decided name. -/
inductive RouteResult : Type where
  | complete
  | dispatch (agent : String)
deriving DecidableEq

/-- `OrchestratorAgent.run`: `END` marks the session complete; a name
`get_agent` does not know also marks the session complete (after a
printed error); a registered name is dispatched. -/
def orchestrator_route (llm : LLMDecision) (s : OrchState) : RouteResult :=
  let next := decide_next_agent llm s
  if next = "END" then .complete
  else if next ∈ agent_registry then .dispatch next
  else .complete

/-! # Helper theorems -/

theorem pyDictLookup_mem {β : Type} {k : ℕ} {v : β} :
    ∀ {l : List (ℕ × β)}, pyDictLookup l k = some v → (k, v) ∈ l := by
  intro l
  induction l with
  | nil => intro h; simp [pyDictLookup] at h
  | cons p t ih =>
    intro h
    rw [pyDictLookup] at h
    rcases ht : pyDictLookup t k with _ | w
    · rw [ht] at h
      simp only [Option.none_or] at h
      by_cases hk : p.1 = k
      · rw [if_pos hk] at h
        simp only [Option.some_inj] at h
        subst h
        subst hk
        exact List.mem_cons_self _ _
      · simp [hk] at h
    · rw [ht] at h
      simp only [Option.or_some, Option.some_inj] at h
      subst h
      exact List.mem_cons_of_mem _ (ih ht)

theorem pyDictLookup_eq_none_iff {β : Type} {k : ℕ} :
    ∀ {l : List (ℕ × β)}, pyDictLookup l k = none ↔ k ∉ l.map Prod.fst := by
  intro l
  induction l with
  | nil => simp [pyDictLookup]
  | cons p t ih =>
    rw [pyDictLookup]
    rcases ht : pyDictLookup t k with _ | w
    · rw [ht] at ih
      by_cases hk : p.1 = k <;> simp_all [eq_comm]
    · rw [ht] at ih
      by_cases hk : p.1 = k <;> simp_all [eq_comm]

theorem pyDictLookup_of_nodup {β : Type} {k : ℕ} {v : β} :
    ∀ {l : List (ℕ × β)}, (l.map Prod.fst).Nodup → (k, v) ∈ l →
      pyDictLookup l k = some v := by
  intro l
  induction l with
  | nil => simp
  | cons p t ih =>
    intro hnd hm
    have hnd1 : p.1 ∉ t.map Prod.fst := by
      simp only [List.map_cons, List.nodup_cons] at hnd
      exact hnd.1
    have hnd2 : (t.map Prod.fst).Nodup := by
      simp only [List.map_cons, List.nodup_cons] at hnd
      exact hnd.2
    rw [pyDictLookup]
    rw [List.mem_cons] at hm
    rcases hm with hm | hm
    · have hk1 : p.1 = k := by rw [← hm]
      have hv : p.2 = v := by rw [← hm]
      have hnone : pyDictLookup t k = none := by
        rw [pyDictLookup_eq_none_iff, ← hk1]
        exact hnd1
      simp [hnone, hk1, hv]
    · rw [ih hnd2 hm]
      rfl

theorem sparseDictEntries_keys (sparse : List ℕ) :
    (sparseDictEntries sparse).map Prod.fst = sparse := by
  simp only [sparseDictEntries, List.map_map]
  have : (Prod.fst ∘ fun p : ℕ × ℕ => (p.2, p.1)) = Prod.snd := rfl
  rw [this, List.enum_map_snd]

theorem sparseDictEntries_mem_iff {sparse : List ℕ} {h i : ℕ} :
    (h, i) ∈ sparseDictEntries sparse ↔ sparse[i]? = some h := by
  constructor
  · intro hm
    simp only [sparseDictEntries, List.mem_map] at hm
    obtain ⟨p, hp, he⟩ := hm
    obtain ⟨h1, h2⟩ := Prod.mk.injEq .. ▸ he
    subst h1; subst h2
    exact List.mem_enum_iff_getElem?.1 hp
  · intro hg
    simp only [sparseDictEntries, List.mem_map]
    exact ⟨(i, h), List.mem_enum_iff_getElem?.2 hg, rfl⟩

theorem sparseDictEntries_lookup_lt {sparse : List ℕ} {h i : ℕ}
    (hl : pyDictLookup (sparseDictEntries sparse) h = some i) :
    i < sparse.length ∧ sparse[i]? = some h := by
  have hm := pyDictLookup_mem hl
  have hg := sparseDictEntries_mem_iff.1 hm
  refine ⟨?_, hg⟩
  rcases List.getElem?_eq_some_iff.1 hg with ⟨hlt, _⟩
  exact hlt

theorem sparseDictEntries_lookup_of_nodup {sparse : List ℕ} {h i : ℕ}
    (hnd : sparse.Nodup) (hg : sparse[i]? = some h) :
    pyDictLookup (sparseDictEntries sparse) h = some i := by
  apply pyDictLookup_of_nodup
  · rw [sparseDictEntries_keys]; exact hnd
  · exact sparseDictEntries_mem_iff.2 hg

theorem pyDictLookup_sparse_none {sparse : List ℕ} {h : ℕ} (hn : h ∉ sparse) :
    pyDictLookup (sparseDictEntries sparse) h = none := by
  rw [pyDictLookup_eq_none_iff, sparseDictEntries_keys]
  exact hn

theorem rag_loop_go_bounds (enabled : List ℕ → Bool)
    (collector : ℕ → List ℕ → List ℕ × Feedback)
    (research : ℕ → Feedback → List ℕ) :
    ∀ (fuel count : ℕ) (docs : List ℕ),
      count ≤ (rag_loop_go enabled collector research fuel count docs).iterations ∧
      (rag_loop_go enabled collector research fuel count docs).iterations ≤ count + fuel ∧
      ((rag_loop_go enabled collector research fuel count docs).warned = true ↔
        MAX_FEEDBACK_LOOPS ≤ (rag_loop_go enabled collector research fuel count docs).iterations) := by
  intro fuel
  induction fuel with
  | zero =>
    intro count docs
    simp [rag_loop_go]
  | succ fuel ih =>
    intro count docs
    rw [rag_loop_go]
    by_cases he : enabled docs
    · rw [if_pos he]
      rcases hc : collector count docs with ⟨docs1, fb⟩
      dsimp only
      by_cases hw : fb.web_search_requested
      · rw [if_pos hw]
        exact ⟨le_rfl, Nat.le_add_right _ _, by simp⟩
      · rw [if_neg hw]
        cases ha : fb.action with
        | accept_all => exact ⟨le_rfl, Nat.le_add_right _ _, by simp⟩
        | partial_select => exact ⟨le_rfl, Nat.le_add_right _ _, by simp⟩
        | no_docs => exact ⟨le_rfl, Nat.le_add_right _ _, by simp⟩
        | research_keyword =>
          dsimp only
          by_cases hk : fb.keywords ≠ []
          · rw [if_pos hk]
            obtain ⟨ih1, ih2, ih3⟩ :=
              ih (count + 1) (requery_merge fb.original_docs (research count fb))
            exact ⟨by omega, by omega, ih3⟩
          · rw [if_neg hk]
            exact ⟨le_rfl, Nat.le_add_right _ _, by simp⟩
        | research_db =>
          dsimp only
          by_cases hk : fb.dbs ≠ []
          · rw [if_pos hk]
            obtain ⟨ih1, ih2, ih3⟩ :=
              ih (count + 1) (requery_merge fb.original_docs (research count fb))
            exact ⟨by omega, by omega, ih3⟩
          · rw [if_neg hk]
            exact ⟨le_rfl, Nat.le_add_right _ _, by simp⟩
    · rw [if_neg he]
      exact ⟨le_rfl, Nat.le_add_right _ _, by simp⟩

theorem chainlit_loop_go_bounds
    (collector : ℕ → List ℕ → List ℕ × Feedback)
    (search_k search_db : ℕ → Feedback → PyResult (List ℕ)) :
    ∀ (fuel count : ℕ) (docs : List ℕ),
      count ≤ (chainlit_loop_go collector search_k search_db fuel count docs).iterations ∧
      (chainlit_loop_go collector search_k search_db fuel count docs).iterations ≤ count + fuel ∧
      ((chainlit_loop_go collector search_k search_db fuel count docs).warned = true →
        MAX_FEEDBACK_LOOPS ≤ (chainlit_loop_go collector search_k search_db fuel count docs).iterations) := by
  intro fuel
  induction fuel with
  | zero =>
    intro count docs
    simp [chainlit_loop_go]
  | succ fuel ih =>
    intro count docs
    rw [chainlit_loop_go]
    rcases hc : collector count docs with ⟨docs1, fb⟩
    dsimp only
    by_cases hw : fb.web_search_requested
    · rw [if_pos hw]
      exact ⟨le_rfl, Nat.le_add_right _ _, by simp⟩
    · rw [if_neg hw]
      by_cases hk : fb.action = .research_keyword ∧ fb.keywords ≠ []
      · rw [if_pos hk]
        rcases hs : search_k count fb with nd | _
        · dsimp only
          obtain ⟨ih1, ih2, ih3⟩ :=
            ih (count + 1) (requery_merge fb.original_docs nd)
          exact ⟨by omega, by omega, fun hwt => ih3 hwt⟩
        · dsimp only
          exact ⟨le_rfl, Nat.le_add_right _ _, by simp⟩
      · rw [if_neg hk]
        by_cases hd : fb.action = .research_db
        · rw [if_pos hd]
          obtain ⟨ih1, ih2, ih3⟩ :=
            ih (count + 1)
              (if fb.dbs ≠ [] then
                match search_db count fb with
                | .exn => docs1
                | .ok new_docs => new_docs.take 10
              else docs1)
          exact ⟨by omega, by omega, fun hwt => ih3 hwt⟩
        · rw [if_neg hd]
          by_cases hacc : fb.action = .accept_all ∨ fb.action = .partial_select
          · rw [if_pos hacc]
            exact ⟨le_rfl, Nat.le_add_right _ _, by simp⟩
          · rw [if_neg hacc]
            by_cases hmax : MAX_FEEDBACK_LOOPS ≤ count + 1
            · rw [if_pos hmax]
              exact ⟨Nat.le_succ _, by dsimp only; omega, fun _ => hmax⟩
            · rw [if_neg hmax]
              obtain ⟨ih1, ih2, ih3⟩ := ih (count + 1) docs1
              exact ⟨by omega, by omega, fun hwt => ih3 hwt⟩

/-! # Claim theorems -/

/-- C2 (amended): for every sequence of feedback decisions, both HITL
refinement loops terminate after at most `MAX_FEEDBACK_LOOPS = 3`
requery iterations (the embedded loop functions are total, and the
iteration counter at exit never exceeds 3); when the budget is
exhausted `RAGAgent.run` emits its warning — its warning flag is set
exactly when the count reached 3 — while the Chainlit loop's warning
can only come from a budget-exhausting non-requery decision. -/
theorem c2_loop_budget (enabled : List ℕ → Bool)
    (collector : ℕ → List ℕ → List ℕ × Feedback)
    (research : ℕ → Feedback → List ℕ)
    (collector2 : ℕ → List ℕ → List ℕ × Feedback)
    (search_k search_db : ℕ → Feedback → PyResult (List ℕ))
    (docs0 docs1 : List ℕ) :
    (rag_loop enabled collector research docs0).iterations ≤ MAX_FEEDBACK_LOOPS ∧
    ((rag_loop enabled collector research docs0).warned = true ↔
      (rag_loop enabled collector research docs0).iterations = MAX_FEEDBACK_LOOPS) ∧
    (chainlit_loop collector2 search_k search_db docs1).iterations ≤ MAX_FEEDBACK_LOOPS ∧
    ((chainlit_loop collector2 search_k search_db docs1).warned = true →
      (chainlit_loop collector2 search_k search_db docs1).iterations = MAX_FEEDBACK_LOOPS) := by
  unfold rag_loop chainlit_loop
  obtain ⟨h1, h2, h3⟩ :=
    rag_loop_go_bounds enabled collector research MAX_FEEDBACK_LOOPS 0 docs0
  obtain ⟨g1, g2, g3⟩ :=
    chainlit_loop_go_bounds collector2 search_k search_db MAX_FEEDBACK_LOOPS 0 docs1
  refine ⟨by omega, ?_, by omega, ?_⟩
  · rw [h3]
    omega
  · intro hw
    have := g3 hw
    omega

/-- C2 counterexample: in `perform_rag_search_with_hitl`, when every
decision is `requery_partition` (`research_db`, the requery branch that
is live in the deployed source) and each `_search_documents` call
succeeds with `[9]`, the loop runs its three budgeted iterations and
then exits through the `while` guard, which prints NO warning — the
claim's "logs a warning" fails on this loop (the code does proceed with
the current working set `[9]`).  The second conjunct records why the
keyword branch cannot exhaust the budget instead: `rag_agent.search_only`
does not exist, so a keyword requery always takes the exception path
and exits on its FIRST iteration with the original documents. -/
theorem c2_counterexample :
    chainlit_loop
      (fun _ docs => (docs, ⟨.research_db, false, [], ["03_tunnel"], docs⟩))
      (fun _ _ => .exn) (fun _ _ => .ok [9]) [1] =
      ⟨[9], 3, false, false⟩ ∧
    chainlit_loop
      (fun _ docs => (docs, ⟨.research_keyword, false, [7], [], docs⟩))
      (fun _ _ => .exn) (fun _ _ => .exn) [1] =
      ⟨[1], 0, false, false⟩ := by
  exact ⟨by decide, by decide⟩

/-- C3 (amended): the requery branches concatenate the prior set and
the new retrieval and cap at 15, with NO identity-key dedup at merge
time; consequently the merged size is `min (|prior| + |new|) 15`, and a
second identical requery over an unchanged index (same `new`) yields
`min (min (|prior| + |new|) 15 + |new|) 15`, which generally differs
from the first size. -/
theorem c3_requery_merge_size (original_docs research_docs : List ℕ) :
    (requery_merge original_docs research_docs).length =
      min (original_docs.length + research_docs.length) 15 ∧
    (requery_merge (requery_merge original_docs research_docs) research_docs).length =
      min (min (original_docs.length + research_docs.length) 15 +
        research_docs.length) 15 := by
  constructor <;> simp [requery_merge] <;> omega

/-- C3 counterexample: starting from `[0]`, two `requery_keyword`
iterations with identical keywords over an unchanged index (the
re-retrieval returns `[1]` both times) produce working sets `[0, 1]`
(size 2) and then `[0, 1, 1]` (size 3): the merged set is NOT the
deduplicated union (it holds the identity key `1` twice), and the two
identical requeries do NOT yield the same merged size. -/
theorem c3_counterexample :
    rag_loop (fun _ => true)
      (fun i docs =>
        if i < 2 then (docs, ⟨.research_keyword, false, [7], [], docs⟩)
        else (docs, ⟨.accept_all, false, [], [], docs⟩))
      (fun _ _ => [1]) [0] = ⟨[0, 1, 1], 2, false, false⟩ ∧
    ¬ ([0, 1, 1] : List ℕ).Nodup ∧
    (requery_merge [0] [1]).length ≠ (requery_merge [0, 1] [1]).length := by
  exact ⟨by decide, by decide, by decide⟩

/-- C4 (amended): the shared requery merge of `RAGAgent.run` (both
branches) and of the Chainlit keyword branch is additive before the
cap: a prior working set within the 15-document cap survives as a
prefix, so no previously accepted document is dropped there.  (The
Chainlit `research_db` branch instead REPLACES the working set — see
the counterexample.) -/
theorem c4_requery_additive (original_docs research_docs : List ℕ)
    (hle : original_docs.length ≤ 15) :
    (requery_merge original_docs research_docs).take original_docs.length =
      original_docs ∧
    ∀ d ∈ original_docs, d ∈ requery_merge original_docs research_docs := by
  have hpre : (requery_merge original_docs research_docs).take original_docs.length =
      original_docs := by
    rw [requery_merge, List.take_take, min_eq_left hle, List.take_append_eq_append_take]
    simp
  refine ⟨hpre, fun d hd => ?_⟩
  rw [← hpre] at hd
  exact List.mem_of_mem_take hd

/-- Witness for `c4_requery_additive` at a concrete input. -/
theorem c4_requery_additive_witness :
    (requery_merge [1, 2] [3]).take ([1, 2] : List ℕ).length = [1, 2] ∧
    ∀ d ∈ ([1, 2] : List ℕ), d ∈ requery_merge [1, 2] [3] :=
  c4_requery_additive [1, 2] [3] (by decide)

/-- C4 counterexample: in `perform_rag_search_with_hitl`, a
`requery_partition` (`research_db`) decision replaces the working set
with the new retrieval (`docs = new_docs[:10]`): starting from
`[1, 2]`, one `research_db` round whose retrieval returns `[9]`
followed by `accept_all` ends with working set `[9]` — the previously
accepted documents 1 and 2 were dropped by a requery branch, with no
`select_partial` decision anywhere. -/
theorem c4_counterexample :
    chainlit_loop
      (fun i docs =>
        if i = 0 then (docs, ⟨.research_db, false, [], ["03_tunnel"], docs⟩)
        else (docs, ⟨.accept_all, false, [], [], docs⟩))
      (fun _ _ => .exn) (fun _ _ => .ok [9]) [1, 2] =
      ⟨[9], 1, false, false⟩ := by decide

/-- C5 (amended): when the heuristic decision call raises, times out,
or returns no tool call, `decide_next_agent` resolves through the
deterministic `_fallback_decision` rule table, whose result always lies
in the closed action enum; no exception escapes.  But a returned
tool-call NAME is passed through unvalidated: if it lies outside the
registry and is not `END`, `OrchestratorAgent.run` ends the session
(`is_complete = True`) instead of re-resolving through the fallback
table. -/
theorem c5_fallback_decision (s : OrchState) (name : String)
    (hreg : name ∉ agent_registry) (hend : name ≠ "END") :
    decide_next_agent .failure s = fallback_decision s ∧
    decide_next_agent .no_tool_call s = fallback_decision s ∧
    fallback_decision s ∈ allowed_actions ∧
    orchestrator_route (.tool_call name) s = .complete := by
  refine ⟨rfl, rfl, ?_, ?_⟩
  · unfold fallback_decision allowed_actions
    split_ifs <;> simp
  · unfold orchestrator_route decide_next_agent
    rw [if_neg hend, if_neg hreg]

/-- Witness for `c5_fallback_decision` at a concrete state and name. -/
theorem c5_fallback_decision_witness :
    decide_next_agent .failure ⟨"generate_report", false, false, [], false, false⟩ =
      fallback_decision ⟨"generate_report", false, false, [], false, false⟩ ∧
    decide_next_agent .no_tool_call ⟨"generate_report", false, false, [], false, false⟩ =
      fallback_decision ⟨"generate_report", false, false, [], false, false⟩ ∧
    fallback_decision ⟨"generate_report", false, false, [], false, false⟩ ∈ allowed_actions ∧
    orchestrator_route (.tool_call "IntentAgent")
      ⟨"generate_report", false, false, [], false, false⟩ = .complete :=
  c5_fallback_decision ⟨"generate_report", false, false, [], false, false⟩
    "IntentAgent" (by decide) (by decide)

/-- C5 counterexample: a tool call naming `IntentAgent` — outside the
closed enum — is returned by `decide_next_agent` as-is, NOT resolved by
the fallback table (which would pick `RAGAgent` in this state);
`OrchestratorAgent.run` then silently completes the session. -/
theorem c5_counterexample :
    decide_next_agent (.tool_call "IntentAgent")
      ⟨"generate_report", false, false, [], false, false⟩ = "IntentAgent" ∧
    "IntentAgent" ∉ allowed_actions ∧
    fallback_decision ⟨"generate_report", false, false, [], false, false⟩ =
      "RAGAgent" ∧
    orchestrator_route (.tool_call "IntentAgent")
      ⟨"generate_report", false, false, [], false, false⟩ = .complete := by
  exact ⟨rfl, by decide, by decide, by decide⟩

/-- C8 (amended): in a retrieval round over several partitions, ONLY a
missing index is isolated (the partition is skipped); a raised
exception inside one partition's retrieval aborts the whole
`_search_documents` call — the round fails exactly when some
index-bearing partition's retrieval raises — and an embedding-service
failure makes `SingleDBHybridRetriever.retrieve` raise, with no
lexical-only (alpha = 0) degradation. -/
theorem c8_partition_failures (hasIndex : String → Bool)
    (retrieve : String → PyResult (List ℕ)) (dbs : List String) :
    (search_documents hasIndex retrieve dbs = .exn ↔
      ∃ db ∈ dbs, hasIndex db = true ∧ retrieve db = .exn) ∧
    ∀ (top_k : ℕ) (alpha : ℚ) (sparse : List ℕ) (rerank : List ℕ → List ℕ),
      retrieve_hybrid top_k alpha .exn sparse rerank = .exn := by
  refine ⟨?_, fun _ _ _ _ => rfl⟩
  induction dbs with
  | nil => simp [search_documents]
  | cons db rest ih =>
    rw [search_documents]
    by_cases hi : hasIndex db
    · rw [if_pos hi]
      rcases hr : retrieve db with docs | _
      · rcases hrest : search_documents hasIndex retrieve rest with more | _
        · dsimp only
          constructor
          · intro h
            exact absurd h (by simp)
          · intro hex
            obtain ⟨d, hd, hdi, hre⟩ := hex
            rcases List.mem_cons.1 hd with rfl | hd
            · rw [hre] at hr
              exact absurd hr (by simp)
            · have hx : search_documents hasIndex retrieve rest = .exn :=
                ih.2 ⟨d, hd, hdi, hre⟩
              rw [hx] at hrest
              exact absurd hrest (by simp)
        · dsimp only
          constructor
          · intro _
            obtain ⟨d, hd, hdi, hre⟩ := ih.1 hrest
            exact ⟨d, List.mem_cons_of_mem _ hd, hdi, hre⟩
          · intro _
            rfl
      · dsimp only
        constructor
        · intro _
          exact ⟨db, List.mem_cons_self _ _, hi, hr⟩
        · intro _
          rfl
    · rw [if_neg hi]
      rw [ih]
      constructor
      · intro hex
        obtain ⟨d, hd, hdi, hre⟩ := hex
        exact ⟨d, List.mem_cons_of_mem _ hd, hdi, hre⟩
      · intro hex
        obtain ⟨d, hd, hdi, hre⟩ := hex
        rcases List.mem_cons.1 hd with rfl | hd
        · exact absurd hdi (by simpa using hi)
        · exact ⟨d, hd, hdi, hre⟩

/-- C8 counterexample: with two index-bearing partitions where the
first succeeds (`[1]`) and the second raises, the whole round raises
instead of skipping the failing partition and keeping the sibling's
documents; and a dense-step (embedding) failure makes the hybrid
retriever raise instead of degrading to lexical-only ranking. -/
theorem c8_counterexample :
    search_documents (fun _ => true)
      (fun db => if db = "02_earth" then .exn else .ok [1])
      ["01_bridge", "02_earth"] = .exn ∧
    search_documents (fun _ => true)
      (fun db => if db = "02_earth" then .exn else .ok [1])
      ["01_bridge"] = .ok [1] ∧
    retrieve_hybrid 5 (1/2) .exn [7] (fun l => l) = .exn := by
  exact ⟨by decide, by decide, rfl⟩

/-- C10 (confirmed): in the `select_partial` branch of
`HumanFeedbackCollector.process`, whenever the selection input yields
no valid document — a timeout, a malformed string (the caught `int()`
exception), or indices that all fall out of range — the collector
returns the FULL current document set with action `accept_all`; for a
non-empty document list the returned working set is never empty, and a
successful partial selection returns exactly the parsed selection. -/
theorem c10_selection_fallback (docs : List ℕ) (inp : SelectionInput)
    (hne : docs ≠ []) :
    (select_documents_chainlit docs inp = [] →
      process_partial_select docs inp = (docs, .accept_all)) ∧
    (process_partial_select docs inp).1 ≠ [] ∧
    ((process_partial_select docs inp).2 = .partial_select →
      process_partial_select docs inp =
        (select_documents_chainlit docs inp, .partial_select)) := by
  unfold process_partial_select
  by_cases hsel : select_documents_chainlit docs inp = []
  · rw [hsel]
    simp [hne]
  · rw [if_pos hsel]
    exact ⟨fun h => absurd h hsel, hsel, fun _ => rfl⟩

/-- Witness for `c10_selection_fallback`: a malformed selection
string over a two-document set. -/
theorem c10_selection_fallback_witness :
    (select_documents_chainlit [1, 2] .malformed = [] →
      process_partial_select [1, 2] .malformed = ([1, 2], .accept_all)) ∧
    (process_partial_select [1, 2] .malformed).1 ≠ [] ∧
    ((process_partial_select [1, 2] .malformed).2 = .partial_select →
      process_partial_select [1, 2] .malformed =
        (select_documents_chainlit [1, 2] .malformed, .partial_select)) :=
  c10_selection_fallback [1, 2] .malformed (by decide)

/-- C7 (amended): `_sanitize_plan` DROPS an unknown partition name from
the plan (keeping the valid ones); only when NO valid name remains does
it substitute the default `08_general`; an invalid fallback-DB name is
replaced so that, with `08_general` available, the sanitised fallback
DB always exists; the result never names a non-existent partition and
is never empty.  The exact-title router, by contrast, RAISES
`ValueError` on an unmapped title, and the `requery_partition` payload
path performs no substitution at all (a DB without an index is merely
skipped). -/
theorem c7_unknown_partitions (available_dbs : List String)
    (plan : PartitionPlan) (title : String)
    (hgen : "08_general" ∈ available_dbs)
    (hti : EXACT_TITLE_DB_MAP.lookup title = none) :
    (∀ db ∈ (sanitize_plan available_dbs plan).db_list, db ∈ available_dbs) ∧
    (sanitize_plan available_dbs plan).db_list ≠ [] ∧
    (plan.db_list.filter (fun db => decide (db ∈ available_dbs)) = [] →
      (sanitize_plan available_dbs plan).db_list = ["08_general"]) ∧
    (plan.db_list.filter (fun db => decide (db ∈ available_dbs)) ≠ [] →
      (sanitize_plan available_dbs plan).db_list =
        plan.db_list.filter (fun db => decide (db ∈ available_dbs))) ∧
    (plan.fallback = true →
      (sanitize_plan available_dbs plan).fallback_db ∈ available_dbs) ∧
    get_db_from_title title = .exn := by
  have hdb : (sanitize_plan available_dbs plan).db_list =
      if plan.db_list.filter (fun db => decide (db ∈ available_dbs)) = [] then
        ["08_general"]
      else plan.db_list.filter (fun db => decide (db ∈ available_dbs)) := by
    by_cases hf : plan.fallback = true ∧ plan.fallback_db ∉ available_dbs <;>
      by_cases hv : plan.db_list.filter (fun db => decide (db ∈ available_dbs)) = [] <;>
        simp [sanitize_plan, hf, hv, hgen]
  have hfb : plan.fallback = true →
      (sanitize_plan available_dbs plan).fallback_db ∈ available_dbs := by
    intro hpf
    by_cases hfd : plan.fallback_db ∈ available_dbs
    · have hnc : ¬ (plan.fallback = true ∧ plan.fallback_db ∉ available_dbs) :=
        fun hc => hc.2 hfd
      simp only [sanitize_plan, if_neg hnc]
      exact hfd
    · have hc : plan.fallback = true ∧ plan.fallback_db ∉ available_dbs := ⟨hpf, hfd⟩
      simp only [sanitize_plan, if_pos hc, if_pos hgen]
      exact hgen
  refine ⟨?_, ?_, ?_, ?_, hfb, ?_⟩
  · intro db hdbm
    rw [hdb] at hdbm
    by_cases hv : plan.db_list.filter (fun db => decide (db ∈ available_dbs)) = []
    · rw [if_pos hv] at hdbm
      rcases List.mem_singleton.1 hdbm with rfl
      exact hgen
    · rw [if_neg hv] at hdbm
      have := (List.mem_filter.1 hdbm).2
      exact of_decide_eq_true this
  · rw [hdb]
    by_cases hv : plan.db_list.filter (fun db => decide (db ∈ available_dbs)) = [] <;>
      simp [hv]
  · intro hv
    rw [hdb, if_pos hv]
  · intro hv
    rw [hdb, if_neg hv]
  · unfold get_db_from_title
    rw [hti]

/-- Witness for `c7_unknown_partitions`: a plan naming only the unknown
partition `99_unknown`, an invalid fallback DB, and an unmapped
document title, over the eight deployed partitions. -/
theorem c7_unknown_partitions_witness :
    (∀ db ∈ (sanitize_plan standard_dbs ⟨["99_unknown"], true, "bogus"⟩).db_list,
      db ∈ standard_dbs) ∧
    (sanitize_plan standard_dbs ⟨["99_unknown"], true, "bogus"⟩).db_list ≠ [] ∧
    ((["99_unknown"] : List String).filter (fun db => decide (db ∈ standard_dbs)) = [] →
      (sanitize_plan standard_dbs ⟨["99_unknown"], true, "bogus"⟩).db_list =
        ["08_general"]) ∧
    ((["99_unknown"] : List String).filter (fun db => decide (db ∈ standard_dbs)) ≠ [] →
      (sanitize_plan standard_dbs ⟨["99_unknown"], true, "bogus"⟩).db_list =
        (["99_unknown"] : List String).filter (fun db => decide (db ∈ standard_dbs))) ∧
    ((true : Bool) = true →
      (sanitize_plan standard_dbs ⟨["99_unknown"], true, "bogus"⟩).fallback_db ∈
        standard_dbs) ∧
    get_db_from_title "존재하지않는지침" = .exn :=
  c7_unknown_partitions standard_dbs ⟨["99_unknown"], true, "bogus"⟩
    "존재하지않는지침" (by decide) (by decide)

/-- C7 counterexample: the claim "any unknown or invalid partition name
is replaced by the configured default general partition and no error is
raised" fails on the code three ways: (1) `_sanitize_plan` on
`["99_unknown", "01_bridge"]` simply DROPS the unknown name — no
`08_general` appears in the result; (2) `_search_documents` on a
`requery_partition` payload naming an unknown partition skips it
(missing index) and returns nothing, substituting nothing; (3)
`get_db_from_title` on an unmapped title RAISES `ValueError`. -/
theorem c7_counterexample :
    sanitize_plan standard_dbs ⟨["99_unknown", "01_bridge"], false, "08_general"⟩ =
      ⟨["01_bridge"], false, "08_general"⟩ ∧
    "08_general" ∉ (sanitize_plan standard_dbs
      ⟨["99_unknown", "01_bridge"], false, "08_general"⟩).db_list ∧
    search_documents (fun db => decide (db ∈ standard_dbs)) (fun _ => .ok [4])
      ["99_unknown"] = .ok [] ∧
    get_db_from_title "존재하지않는지침" = .exn := by
  exact ⟨by decide, by decide, by decide, by decide⟩

/-- C1 (amended): whenever the lexical candidate list is non-empty (so
the Python division `1 - s_rank / len(sparse_results)` is defined) and
its entries are pairwise distinct, the fusion step succeeds and its
output satisfies the claimed fusion property `FusionSpec`: dense
documents score `alpha * dense + (1 - alpha) * (1 - rank / N)` (with
rank `N` — vanishing lexical term — when absent from the lexical list),
lexical-only documents score `(1 - alpha) * (1 - rank / N)`, no foreign
document appears, and the result is sorted by combined score in
descending order; the returned document list is the score-sorted list's
projection.  (With an empty lexical list and a non-empty dense list the
step instead raises — see the counterexample.) -/
theorem c1_hybrid_fusion (alpha : ℚ) (dense : List (ℕ × ℚ)) (sparse : List ℕ)
    (hsne : sparse ≠ []) (hnd : sparse.Nodup) :
    ∃ out, hybrid_merge alpha dense sparse = .ok out ∧
      FusionSpec alpha dense sparse out ∧
      hybrid_merge_docs alpha dense sparse = .ok (out.map Prod.fst) := by
  have hcond : ¬ (dense ≠ [] ∧ sparse = []) := fun hc => hsne hc.2
  set ds := dense.map (fun p =>
    (p.1, alpha * p.2 + (1 - alpha) *
      (1 - ((pyDictLookup (sparseDictEntries sparse) p.1).getD sparse.length : ℚ) /
        (sparse.length : ℚ)))) with hds_def
  set so := sparse.enum.filterMap (fun p =>
    if p.2 ∈ dense.map Prod.fst then none
    else some (p.2, (1 - alpha) * (1 - (p.1 : ℚ) / (sparse.length : ℚ)))) with hso_def
  have hmerge : hybrid_merge alpha dense sparse =
      .ok (List.insertionSort scoreGe (ds ++ so)) := by
    unfold hybrid_merge
    rw [if_neg hcond]
  refine ⟨List.insertionSort scoreGe (ds ++ so), hmerge, ?_, ?_⟩
  · have hperm := List.perm_insertionSort scoreGe (ds ++ so)
    have hmem : ∀ x : ℕ × ℚ,
        x ∈ List.insertionSort scoreGe (ds ++ so) ↔ x ∈ ds ++ so :=
      fun x => hperm.mem_iff
    refine ⟨?_, ?_, ?_, ?_, ?_⟩
    · intro p hp i hgi
      rw [hmem, List.mem_append]
      left
      have hl : pyDictLookup (sparseDictEntries sparse) p.1 = some i :=
        sparseDictEntries_lookup_of_nodup hnd hgi
      have h2 : ((pyDictLookup (sparseDictEntries sparse) p.1).getD sparse.length : ℚ) =
          (i : ℚ) := by rw [hl]; rfl
      rw [← h2]
      exact List.mem_map_of_mem _ hp
    · intro p hp hns
      rw [hmem, List.mem_append]
      left
      have hl : pyDictLookup (sparseDictEntries sparse) p.1 = none :=
        pyDictLookup_sparse_none hns
      have h2 : ((pyDictLookup (sparseDictEntries sparse) p.1).getD sparse.length : ℚ) =
          ((sparse.length : ℕ) : ℚ) := by rw [hl]; rfl
      nth_rewrite 1 [← h2]
      exact List.mem_map_of_mem _ hp
    · intro i h hgi hnk
      rw [hmem, List.mem_append]
      right
      refine List.mem_filterMap.2 ⟨(i, h), List.mem_enum_iff_getElem?.2 hgi, ?_⟩
      rw [if_neg hnk]
    · intro q hq
      rw [hmem, List.mem_append] at hq
      rcases hq with hq | hq
      · obtain ⟨p, hp, himg⟩ := List.mem_map.1 hq
        left
        rw [← himg]
        dsimp only
        exact List.mem_map_of_mem Prod.fst hp
      · obtain ⟨a, ha, hfa⟩ := List.mem_filterMap.1 hq
        by_cases hmk : a.2 ∈ dense.map Prod.fst
        · rw [if_pos hmk] at hfa
          cases hfa
        · rw [if_neg hmk] at hfa
          right
          have hqe := Option.some_inj.1 hfa
          rw [← hqe]
          have := List.mem_map_of_mem Prod.snd ha
          rwa [List.enum_map_snd] at this
    · exact List.sorted_insertionSort scoreGe _
  · unfold hybrid_merge_docs
    rw [hmerge]

/-- Witness for `c1_hybrid_fusion` at a concrete input (dense `[(3, 1/2)]`,
lexical `[5, 3]`). -/
theorem c1_hybrid_fusion_witness :
    ∃ out, hybrid_merge (1/2) [(3, 1/2)] [5, 3] = .ok out ∧
      FusionSpec (1/2) [(3, 1/2)] [5, 3] out ∧
      hybrid_merge_docs (1/2) [(3, 1/2)] [5, 3] = .ok (out.map Prod.fst) :=
  c1_hybrid_fusion (1/2) [(3, 1/2)] [5, 3] (by decide) (by decide)

/-- C1 counterexample: with a non-empty dense candidate list and an
EMPTY lexical rank list, `_hybrid_merge` raises `ZeroDivisionError` on
`1 - s_rank / len(sparse_results)` instead of returning the documents
sorted by combined score, so the claim's unqualified "for every lexical
rank list" fails. -/
theorem c1_counterexample :
    hybrid_merge (1/2) [(3, 1/2)] [] = .exn ∧
    hybrid_merge_docs (1/2) [(3, 1/2)] [] = .exn := by
  constructor
  · rfl
  · rfl

/-- C9 (amended): every combined score the fusion step actually
produces (any entry of a successfully returned list) is well-defined,
non-negative, and at most 1, provided the dense scores lie in `[0, 1]`
and `alpha` lies in `[0, 1]`; but when the lexical step returns zero
candidates and the dense list is non-empty, the step raises
`ZeroDivisionError` and produces no scores at all — see the
counterexample. -/
theorem c9_fusion_score_bounds (alpha : ℚ) (dense : List (ℕ × ℚ)) (sparse : List ℕ)
    (h0 : 0 ≤ alpha) (h1 : alpha ≤ 1)
    (hdense : ∀ p ∈ dense, 0 ≤ p.2 ∧ p.2 ≤ 1) :
    ∀ out, hybrid_merge alpha dense sparse = .ok out →
      ∀ q ∈ out, 0 ≤ q.2 ∧ q.2 ≤ 1 := by
  intro out hout q hq
  have hcond : ¬ (dense ≠ [] ∧ sparse = []) := by
    intro hc
    unfold hybrid_merge at hout
    rw [if_pos hc] at hout
    cases hout
  unfold hybrid_merge at hout
  rw [if_neg hcond] at hout
  simp only [PyResult.ok.injEq] at hout
  rw [← hout] at hq
  have hq2 := (List.perm_insertionSort scoreGe _).mem_iff.1 hq
  rcases List.mem_append.1 hq2 with hq3 | hq3
  · obtain ⟨p, hp, himg⟩ := List.mem_map.1 hq3
    obtain ⟨hp0, hp1⟩ := hdense p hp
    have hdne : dense ≠ [] := by
      intro hdn
      rw [hdn] at hp
      cases hp
    have hsne : sparse ≠ [] := fun hs => hcond ⟨hdne, hs⟩
    have hN : (0 : ℚ) < (sparse.length : ℚ) := by
      exact_mod_cast List.length_pos.2 hsne
    rw [← himg]
    dsimp only
    set r : ℕ := (pyDictLookup (sparseDictEntries sparse) p.1).getD sparse.length with hr
    have hrle : r ≤ sparse.length := by
      rcases hl : pyDictLookup (sparseDictEntries sparse) p.1 with _ | i
      · rw [hr, hl]
        exact le_rfl
      · rw [hr, hl]
        exact le_of_lt (sparseDictEntries_lookup_lt hl).1
    have hfrac0 : (0 : ℚ) ≤ (r : ℚ) / (sparse.length : ℚ) :=
      div_nonneg (by positivity) (le_of_lt hN)
    have hfrac1 : (r : ℚ) / (sparse.length : ℚ) ≤ 1 := by
      rw [div_le_one hN]
      exact_mod_cast hrle
    constructor
    · have t1 : 0 ≤ alpha * p.2 := mul_nonneg h0 hp0
      have t2 : 0 ≤ (1 - alpha) * (1 - (r : ℚ) / (sparse.length : ℚ)) :=
        mul_nonneg (by linarith) (by linarith)
      linarith
    · have t1 : alpha * p.2 ≤ alpha := by nlinarith
      have t2 : (1 - alpha) * (1 - (r : ℚ) / (sparse.length : ℚ)) ≤ 1 - alpha := by
        nlinarith
      linarith
  · obtain ⟨a, ha, hfa⟩ := List.mem_filterMap.1 hq3
    by_cases hmk : a.2 ∈ dense.map Prod.fst
    · rw [if_pos hmk] at hfa
      cases hfa
    · rw [if_neg hmk] at hfa
      have hqe := Option.some_inj.1 hfa
      rw [← hqe]
      dsimp only
      have hsne : sparse ≠ [] := by
        intro hs
        rw [hs] at ha
        cases ha
      have hN : (0 : ℚ) < (sparse.length : ℚ) := by
        exact_mod_cast List.length_pos.2 hsne
      have hi : a.1 < sparse.length := by
        obtain ⟨hb, _⟩ :=
          List.getElem?_eq_some_iff.1 (List.mem_enum_iff_getElem?.1 ha)
        exact hb
      have hfrac0 : (0 : ℚ) ≤ (a.1 : ℚ) / (sparse.length : ℚ) :=
        div_nonneg (by positivity) (le_of_lt hN)
      have hfrac1 : (a.1 : ℚ) / (sparse.length : ℚ) ≤ 1 := by
        rw [div_le_one hN]
        exact_mod_cast le_of_lt hi
      constructor
      · exact mul_nonneg (by linarith) (by linarith)
      · nlinarith

/-- Witness for `c9_fusion_score_bounds` at a concrete input: the one
combined score the fusion step produces for an empty dense list and the
single lexical candidate `5` lies in `[0, 1]`. -/
theorem c9_fusion_score_bounds_witness :
    0 ≤ (1 - (1/2 : ℚ)) * (1 - ((0 : ℕ) : ℚ) / (([5] : List ℕ).length : ℚ)) ∧
    (1 - (1/2 : ℚ)) * (1 - ((0 : ℕ) : ℚ) / (([5] : List ℕ).length : ℚ)) ≤ 1 :=
  c9_fusion_score_bounds (1/2) [] [5] (by norm_num) (by norm_num) (by simp)
    [(5, (1 - (1/2 : ℚ)) * (1 - ((0 : ℕ) : ℚ) / (([5] : List ℕ).length : ℚ)))] rfl
    (5, (1 - (1/2 : ℚ)) * (1 - ((0 : ℕ) : ℚ) / (([5] : List ℕ).length : ℚ)))
    (List.mem_cons_self _ _)

/-- C9 counterexample: the claim includes "the case where the lexical
step returns zero candidates", but there `_hybrid_merge` divides by
`len(sparse_results) = 0` and raises `ZeroDivisionError`: no
well-defined combined score is produced at all. -/
theorem c9_counterexample :
    hybrid_merge (3/10) [(1, 1)] [] = .exn := by
  rfl

theorem parse_selection_range (parts : List SelPart) (n : ℕ) :
    ∀ i ∈ parse_selection parts n, 1 ≤ i ∧ i ≤ (n : ℤ) := by
  intro i hi
  unfold parse_selection at hi
  exact of_decide_eq_true (List.mem_filter.1 hi).2

theorem parse_selection_sorted (parts : List SelPart) (n : ℕ) :
    (parse_selection parts n).Sorted (· < ·) := by
  unfold parse_selection
  apply List.Pairwise.filter
  apply List.Sorted.lt_of_le
  · exact List.sorted_insertionSort _ _
  · exact (List.perm_insertionSort _ _).nodup_iff.2 (List.nodup_dedup _)

theorem select_by_indices_eq_map (docs : List ℕ) :
    ∀ idxs : List ℤ, (∀ i ∈ idxs, 1 ≤ i ∧ i ≤ (docs.length : ℤ)) →
      select_by_indices docs idxs = idxs.map fun i => docs.getD (i - 1).toNat 0 := by
  intro idxs
  induction idxs with
  | nil => intro _; rfl
  | cons i t ih =>
    intro hr
    obtain ⟨h1, h2⟩ := hr i (List.mem_cons_self _ _)
    have hlt : (i - 1).toNat < docs.length := by omega
    show List.filterMap _ (i :: t) = _
    rw [List.filterMap_cons, if_pos ⟨h1, h2⟩, List.getElem?_eq_getElem hlt]
    dsimp only
    rw [List.map_cons]
    congr 1
    · exact (List.getD_eq_getElem docs 0 hlt).symm
    · exact ih fun j hj => hr j (List.mem_cons_of_mem _ hj)

/-- C6 (confirmed): for every document list and every parsed
`select_partial` payload, the selection step returns exactly the
documents at the valid, in-range payload indices (the parsed indices
are sorted ascending and range-filtered, and each `i` picks
`docs[i-1]`), and the result is a sublist of the original list — the
original relative order is preserved; in particular, indices `[1, 3]`
over a 5-document set select exactly the 2 documents at positions 1
and 3, in original order. -/
theorem c6_partial_selection (docs : List ℕ) (parts : List SelPart) :
    select_by_indices docs (parse_selection parts docs.length) =
      (parse_selection parts docs.length).map (fun i => docs.getD (i - 1).toNat 0) ∧
    (select_by_indices docs (parse_selection parts docs.length)).Sublist docs ∧
    parse_selection [.single 1, .single 3] 5 = [1, 3] ∧
    select_by_indices [10, 20, 30, 40, 50] (parse_selection [.single 1, .single 3] 5) =
      [10, 30] := by
  have hrange := parse_selection_range parts docs.length
  have hsorted := parse_selection_sorted parts docs.length
  have heq := select_by_indices_eq_map docs _ hrange
  refine ⟨heq, ?_, by decide, by decide⟩
  have hsub : (((parse_selection parts docs.length).pmap
      (fun i (h : 1 ≤ i ∧ i ≤ (docs.length : ℤ)) =>
        (⟨(i - 1).toNat, by omega⟩ : Fin docs.length)) hrange).map
      (fun x : Fin docs.length => docs[x])).Sublist docs := by
    apply List.map_getElem_sublist
    apply List.Pairwise.pmap hsorted
    intro a ha b hb hab
    rw [Fin.mk_lt_mk]
    omega
  have hconv : ((parse_selection parts docs.length).pmap
      (fun i (h : 1 ≤ i ∧ i ≤ (docs.length : ℤ)) =>
        (⟨(i - 1).toNat, by omega⟩ : Fin docs.length)) hrange).map
      (fun x : Fin docs.length => docs[x]) =
      (parse_selection parts docs.length).map (fun i => docs.getD (i - 1).toNat 0) := by
    rw [List.map_pmap]
    have hc : (parse_selection parts docs.length).pmap
        (fun i (h : 1 ≤ i ∧ i ≤ (docs.length : ℤ)) =>
          docs[(⟨(i - 1).toNat, by omega⟩ : Fin docs.length)]) hrange =
        (parse_selection parts docs.length).pmap
          (fun i (h : 1 ≤ i ∧ i ≤ (docs.length : ℤ)) =>
            docs.getD (i - 1).toNat 0) hrange := by
      apply List.pmap_congr_left
      intro a ha h1 h2
      exact (List.getD_eq_getElem docs 0 (by omega)).symm
    rw [hc, List.pmap_eq_map]
  rw [heq, ← hconv]
  exact hsub
